import Mathlib

/-!
Verification of the Vulkan pipeline-archiving binding-layout algorithm
(`Archiver_Vk.cpp`) and of the WebGPU staging-buffer map logic
(`BufferWebGPUImpl.cpp`) of DiligentCore.

The definitions below are a shallow embedding of the C++ sources.
Functions whose implementation lives outside the analysed translation units
(only their call sites are visible) are modelled from the design
specification; each such definition carries a doc comment starting with
`Modelled from the spec:`.
-/

namespace DiligentVk

/-- MAX_RESOURCE_SIGNATURES from GraphicsTypes.h: size of the signature slot array. -/
def MAX_RESOURCE_SIGNATURES : Nat := 8

/-- SHADER_TYPE_UNKNOWN is the zero stage mask. -/
def SHADER_TYPE_UNKNOWN : Nat := 0

/-- The sentinel (~0u) returned by GetDescriptorSetSize for a descriptor set
that the signature does not have. -/
def NullSetSize : Nat := 4294967295

/-- The two Vulkan descriptor-set ids of a resource signature
(PipelineResourceSignatureVkImpl::DESCRIPTOR_SET_ID_STATIC_MUTABLE / _DYNAMIC). -/
inductive DESCRIPTOR_SET_ID where
  | STATIC_MUTABLE
  | DYNAMIC
deriving DecidableEq

/-- Mutability class of a declared resource (SHADER_RESOURCE_VARIABLE_TYPE). -/
inductive SHADER_RESOURCE_VARIABLE_TYPE where
  | STATIC
  | MUTABLE
  | DYNAMIC
deriving DecidableEq

/-- Declaration part of one pipeline resource (name, stage-visibility mask,
mutability class). -/
structure PipelineResourceDesc where
  name : String
  shaderStages : Nat
  varType : SHADER_RESOURCE_VARIABLE_TYPE
deriving DecidableEq

/-- Backend attribs of one resource inside its signature: the binding slot and
the signature-relative descriptor set (ResAttr.BindingIndex / ResAttr.DescrSet). -/
structure PipelineResourceAttribsVk where
  bindingIndex : Nat
  descrSet : Nat
deriving DecidableEq

/-- The part of PipelineResourceSignatureVkImpl that the archiving code reads:
its declared binding index, its resources with their attribs, and the sizes of
its two descriptor sets (NullSetSize when the set does not exist). -/
structure PipelineResourceSignatureVk where
  bindingIndex : Nat
  resources : List (PipelineResourceDesc × PipelineResourceAttribsVk)
  staticMutableSetSize : Nat
  dynamicSetSize : Nat
deriving DecidableEq

/-- GetDescriptorSetSize accessor: size of the requested descriptor set. -/
def GetDescriptorSetSize (s : PipelineResourceSignatureVk) : DESCRIPTOR_SET_ID → Nat
  | DESCRIPTOR_SET_ID.STATIC_MUTABLE => s.staticMutableSetSize
  | DESCRIPTOR_SET_ID.DYNAMIC => s.dynamicSetSize

/-- The inner loop shared by PatchShadersVk and GetPipelineResourceBindingsVk:
for SetId in (STATIC_MUTABLE, DYNAMIC), increment the counter when
GetDescriptorSetSize(SetId) != ~0u. -/
def countDescSets (s : PipelineResourceSignatureVk) : Nat :=
  [DESCRIPTOR_SET_ID.STATIC_MUTABLE, DESCRIPTOR_SET_ID.DYNAMIC].foldl
    (fun c setId => if GetDescriptorSetSize s setId ≠ NullSetSize then c + 1 else c) 0

/-- Modelled from the spec: `SortResourceSignatures` (implemented in
Archiver_Inc.hpp, which is not among the analysed sources; only its call sites
are). Section 4.1: each non-null signature is placed at slot[BindingIndex] of a
fixed array of MAX_RESOURCE_SIGNATURES slots; the returned count is the maximum
binding-group index + 1 actually used; a duplicate binding index or an index
beyond the array is a construction error with no partial output retained. -/
def sortLoop : List (Option PipelineResourceSignatureVk) →
    List (Option PipelineResourceSignatureVk) → Nat →
    Option (List (Option PipelineResourceSignatureVk) × Nat)
  | [], slots, cnt => some (slots, cnt)
  | none :: rest, slots, cnt => sortLoop rest slots cnt
  | some s :: rest, slots, cnt =>
    if s.bindingIndex < MAX_RESOURCE_SIGNATURES then
      if (slots.getD s.bindingIndex none).isSome then
        none
      else
        sortLoop rest (slots.set s.bindingIndex (some s)) (max cnt (s.bindingIndex + 1))
    else
      none

/-- Modelled from the spec: entry point of the Signature Sorter; starts from an
empty slot array and a zero used-slot count. -/
def SortResourceSignatures (src : List (Option PipelineResourceSignatureVk)) :
    Option (List (Option PipelineResourceSignatureVk) × Nat) :=
  sortLoop src (List.replicate MAX_RESOURCE_SIGNATURES none) 0

/-- The descriptor-set assignment loop of ArchiverImpl::PatchShadersVk (lines
126-142): walk the sorted slots, skip null slots, record the running counter as
BindIndexToDescSetIndex[i] for a present signature, then bump the counter once
per existing descriptor set.  Returns the per-slot remap entries (0 for empty
slots, as the array is zero-initialized) and the final DescSetLayoutCount. -/
def patchLoop : List (Option PipelineResourceSignatureVk) → Nat → List Nat × Nat
  | [], c => ([], c)
  | none :: rest, c =>
    let next := patchLoop rest c
    (0 :: next.1, next.2)
  | some s :: rest, c =>
    let next := patchLoop rest (c + countDescSets s)
    (c :: next.1, next.2)

/-- Externally observable binding record (PipelineResourceBinding). -/
structure PipelineResourceBinding where
  resourceName : String
  shaderStages : Nat
  register : Nat
  space : Nat
deriving DecidableEq

/-- Modelled from the spec: `ResDescToPipelineResBinding` (helper outside the
analysed sources): packs the resource declaration, its stage mask, its binding
slot and its final descriptor-set index into the output record. -/
def ResDescToPipelineResBinding (d : PipelineResourceDesc) (stages : Nat)
    (bindingIdx : Nat) (space : Nat) : PipelineResourceBinding :=
  { resourceName := d.name, shaderStages := stages, register := bindingIdx, space := space }

/-- Stage filter normalization of GetPipelineResourceBindingsVk line 207:
SHADER_TYPE_UNKNOWN means all stages (~0u). -/
def normalizeShaderStages (st : Nat) : Nat :=
  if st = SHADER_TYPE_UNKNOWN then 4294967295 else st

/-- The reporting loop of SerializationDeviceImpl::GetPipelineResourceBindingsVk
(lines 214-236): for every present signature emit one record per resource whose
stage mask intersects the filter, with final set DescSetLayoutCount + DescrSet,
then advance DescSetLayoutCount by the same per-signature rule as the archiver. -/
def getBindingsLoop : List (Option PipelineResourceSignatureVk) → Nat → Nat →
    List PipelineResourceBinding × Nat
  | [], _, c => ([], c)
  | none :: rest, f, c => getBindingsLoop rest f c
  | some s :: rest, f, c =>
    let recs := (s.resources.filter (fun r => r.1.shaderStages &&& f != 0)).map
      (fun r => ResDescToPipelineResBinding r.1 r.1.shaderStages r.2.bindingIndex
        (c + r.2.descrSet))
    let next := getBindingsLoop rest f (c + countDescSets s)
    (recs ++ next.1, next.2)

/-- SerializationDeviceImpl::GetPipelineResourceBindingsVk: normalize the stage
filter, sort the signatures, then run the reporting loop over the used slots.
Returns the emitted records and the final DescSetLayoutCount; none when the
sorter rejects the input. -/
def GetPipelineResourceBindingsVk (infoSigs : List (Option PipelineResourceSignatureVk))
    (infoShaderStages : Nat) : Option (List PipelineResourceBinding × Nat) :=
  let ShaderStages := normalizeShaderStages infoShaderStages
  match SortResourceSignatures infoSigs with
  | none => none
  | some sorted => some (getBindingsLoop (sorted.1.take sorted.2) ShaderStages 0)

/-- Closed-form base offset used to characterize the assignment loops: the sum
of the descriptor-set counts of the present signatures in the first i slots. -/
def sumDescSets (l : List (Option PipelineResourceSignatureVk)) : Nat :=
  ((l.filterMap id).map countDescSets).sum

/-- Base offset of the signature at slot i: descriptor sets consumed by the
present signatures in slots before i. -/
def baseOffset (l : List (Option PipelineResourceSignatureVk)) (i : Nat) : Nat :=
  sumDescSets (l.take i)

/-- Per-signature inner loop of PatchShadersVk seen as an index emitter: for
SetId in (STATIC_MUTABLE, DYNAMIC), when the set exists it receives the current
counter value and the counter advances. -/
def emitSets (s : PipelineResourceSignatureVk) (c : Nat) : List Nat × Nat :=
  [DESCRIPTOR_SET_ID.STATIC_MUTABLE, DESCRIPTOR_SET_ID.DYNAMIC].foldl
    (fun acc setId =>
      if GetDescriptorSetSize s setId ≠ NullSetSize then (acc.1 ++ [acc.2], acc.2 + 1)
      else acc)
    ([], c)

/-- Sequence of descriptor-set indices assigned by the PatchShadersVk loop, in
assignment order. -/
def descSetIndicesLoop : List (Option PipelineResourceSignatureVk) → Nat → List Nat
  | [], _ => []
  | none :: rest, c => descSetIndicesLoop rest c
  | some s :: rest, c => (emitSets s c).1 ++ descSetIndicesLoop rest (c + countDescSets s)

/-- Bindings implied by the archiving path: for the signature at slot i, the
remap consumes BindIndexToDescSetIndex[i] (from the PatchShadersVk loop) and
adds each resource's signature-relative descriptor set. -/
def bindingsFromRemapTable (slots : List (Option PipelineResourceSignatureVk))
    (f : Nat) : List PipelineResourceBinding :=
  let bm := (patchLoop slots 0).1
  ((List.range slots.length).map (fun i =>
    match slots.getD i none with
    | none => []
    | some s => (s.resources.filter (fun r => r.1.shaderStages &&& f != 0)).map
        (fun r => ResDescToPipelineResBinding r.1 r.1.shaderStages r.2.bindingIndex
          (bm.getD i 0 + r.2.descrSet)))).flatten

/-- Closed-form description of the reporter output: one record per declared
resource passing the stage filter, whose final descriptor set is the prefix-sum
base of its signature plus the resource's signature-relative set. -/
def reporterBindingsSpec (slots : List (Option PipelineResourceSignatureVk))
    (f : Nat) : List PipelineResourceBinding :=
  ((List.range slots.length).map (fun i =>
    match slots.getD i none with
    | none => []
    | some s => (s.resources.filter (fun r => r.1.shaderStages &&& f != 0)).map
        (fun r => ResDescToPipelineResBinding r.1 r.1.shaderStages r.2.bindingIndex
          (baseOffset slots i + r.2.descrSet)))).flatten

/-- Content of a default resource signature produced by shader reflection. -/
structure DefaultSignatureContent where
  resources : List (PipelineResourceDesc × PipelineResourceAttribsVk)
  staticMutableSetSize : Nat
  dynamicSetSize : Nat
deriving DecidableEq

/-- Modelled from the spec: `CreateDefaultResourceSignature` (default-signature
synthesis collaborator, outside the analysed sources): when it succeeds it
produces one ResourceSignature derived from shader reflection, inserted at
binding-group index 0. -/
def CreateDefaultResourceSignatureVk (b : DefaultSignatureContent) :
    PipelineResourceSignatureVk :=
  { bindingIndex := 0
    resources := b.resources
    staticMutableSetSize := b.staticMutableSetSize
    dynamicSetSize := b.dynamicSetSize }

/-- Signature-selection step of PatchShadersVk (lines 104-116): when the caller
supplies zero signatures, synthesize the default signature (failure aborts the
build); otherwise use the caller's signatures unchanged. -/
def selectSignatures (sigs : List PipelineResourceSignatureVk)
    (reflected : Option DefaultSignatureContent) :
    Option (List PipelineResourceSignatureVk) :=
  if sigs.length = 0 then
    match reflected with
    | none => none
    | some b => some [CreateDefaultResourceSignatureVk b]
  else
    some sigs

/-- One shader stage handed to PatchShadersVk: its stage kind, its SPIRV blobs
and the resource references embedded in its bytecode (by name). -/
structure ShaderStageVk where
  shaderType : Nat
  spirvs : List (List Nat)
  resourceRefs : List String
deriving DecidableEq

/-- A reference rewritten by the remap: final descriptor set and binding slot. -/
structure RemappedResourceRef where
  name : String
  descSet : Nat
  bindingSlot : Nat
deriving DecidableEq

/-- Resolution of one resource reference against the sorted slots and the
BindIndexToDescSetIndex table: the first present signature declaring the name
yields (BindIndexToDescSetIndex[group] + DescrSet, BindingIndex). -/
def resolveLoop : List (Option PipelineResourceSignatureVk) → List Nat → String →
    Option (Nat × Nat)
  | [], _, _ => none
  | none :: rest, bm, n => resolveLoop rest bm.tail n
  | some s :: rest, bm, n =>
    match s.resources.find? (fun r => r.1.name == n) with
    | some r => some (bm.headD 0 + r.2.descrSet, r.2.bindingIndex)
    | none => resolveLoop rest bm.tail n

/-- Modelled from the spec: `PipelineStateVkImpl::RemapShaderResources` (outside
the analysed sources). Section 4.3: every reference of every stage must resolve
to a declared resource of a visible signature, rewritten to the assigned final
descriptor set and slot; any unresolved reference aborts the whole remap with a
resource-resolution error. -/
def RemapShaderResources (slots : List (Option PipelineResourceSignatureVk))
    (bindMap : List Nat) (stages : List ShaderStageVk) :
    Except String (List (List RemappedResourceRef)) :=
  stages.mapM (fun st => st.resourceRefs.mapM (fun n =>
    match resolveLoop slots bindMap n with
    | some p => Except.ok { name := n, descSet := p.1, bindingSlot := p.2 }
    | none => Except.error n))

/-- Identity of an archived bytecode blob: backend tag, stage kind, bytes. -/
structure ShaderBlobKey where
  deviceType : Nat
  shaderType : Nat
  bytecode : List Nat
deriving DecidableEq

/-- Backend tag used by the Vulkan archiving path. -/
def DeviceType_Vulkan : Nat := 3

/-- Linear lookup of a blob key in the deduplicated store, returning its index. -/
def serializeLookup : List ShaderBlobKey → ShaderBlobKey → Nat → Option Nat
  | [], _, _ => none
  | e :: rest, k, i => if e = k then some i else serializeLookup rest k (i + 1)

/-- Modelled from the spec: `SerializeShaderBytecode` (ArchiverImpl, outside the
analysed sources). Section 4.4: two blobs are identical when backend tag, stage
kind and byte content coincide; an identical blob reuses the existing index,
otherwise the blob is appended and receives the next index. -/
def SerializeShaderBytecode (store : List ShaderBlobKey) (k : ShaderBlobKey) :
    List ShaderBlobKey × Nat :=
  match serializeLookup store k 0 with
  | some i => (store, i)
  | none => (store ++ [k], store.length)

/-- Serialization of all SPIRV blobs of one stage (inner loop of lines 158-168). -/
def serializeStageBlobs (st : ShaderStageVk) (store : List ShaderBlobKey) :
    List ShaderBlobKey × List Nat :=
  st.spirvs.foldl (fun acc blob =>
    let r := SerializeShaderBytecode acc.1
      { deviceType := DeviceType_Vulkan, shaderType := st.shaderType, bytecode := blob }
    (r.1, acc.2 ++ [r.2])) (store, [])

/-- Serialization of all stages of the pipeline (outer loop of lines 158-168). -/
def serializeStages (stages : List ShaderStageVk) (store : List ShaderBlobKey) :
    List ShaderBlobKey × List Nat :=
  stages.foldl (fun acc st =>
    let r := serializeStageBlobs st acc.1
    (r.1, acc.2 ++ r.2)) (store, [])

/-- ArchiverImpl::PatchShadersVk: select (or synthesize) the signatures, sort
them, compute the descriptor-set assignment, remap the shader resources and
serialize the bytecode.  Returns success flag, the (possibly grown) blob store
and the archived shader indices; every failure path returns the store unchanged
and no indices. -/
def PatchShadersVk (sigs : List PipelineResourceSignatureVk)
    (reflected : Option DefaultSignatureContent)
    (stages : List ShaderStageVk)
    (store : List ShaderBlobKey) :
    Bool × List ShaderBlobKey × Option (List Nat) :=
  match selectSignatures sigs reflected with
  | none => (false, store, none)
  | some useSigs =>
    match SortResourceSignatures (useSigs.map some) with
    | none => (false, store, none)
    | some sorted =>
      let slots := sorted.1.take sorted.2
      let assign := patchLoop slots 0
      match RemapShaderResources slots assign.1 stages with
      | Except.error _ => (false, store, none)
      | Except.ok _ =>
        let ser := serializeStages stages store
        (true, ser.1, some ser.2)

/-- Whether a mutability class maps to the dynamic descriptor set. -/
def isDynamicVar : SHADER_RESOURCE_VARIABLE_TYPE → Bool
  | SHADER_RESOURCE_VARIABLE_TYPE.DYNAMIC => true
  | _ => false

/-- Modelled from the spec: descriptor-set presence in
PipelineResourceSignatureVkImpl (constructed outside the analysed sources).
Section 4.2: a mutability class's descriptor set exists exactly when the
signature declares a resource of that class; its size is the number of such
resources, and NullSetSize otherwise.  Resources in the static/mutable class
live in set 0; dynamic resources live in the set after the static/mutable one
when it exists, else in set 0. -/
def mkSignatureVk (bindIdx : Nat)
    (rs : List (String × Nat × SHADER_RESOURCE_VARIABLE_TYPE)) :
    PipelineResourceSignatureVk :=
  let hasSM := rs.any (fun r => !(isDynamicVar r.2.2))
  let hasDyn := rs.any (fun r => isDynamicVar r.2.2)
  { bindingIndex := bindIdx
    resources := (rs.enum).map (fun p =>
      ({ name := p.2.1, shaderStages := p.2.2.1, varType := p.2.2.2 },
       { bindingIndex := p.1
         descrSet := if isDynamicVar p.2.2.2 then (if hasSM then 1 else 0) else 0 }))
    staticMutableSetSize :=
      if hasSM then rs.countP (fun r => !(isDynamicVar r.2.2)) else NullSetSize
    dynamicSetSize :=
      if hasDyn then rs.countP (fun r => isDynamicVar r.2.2) else NullSetSize }

/-- MAP_TYPE values handled by BufferWebGPUImpl::Map; MAP_OTHER stands for any
other value, reaching the UNEXPECTED branch. -/
inductive MAP_TYPE where
  | MAP_READ
  | MAP_WRITE
  | MAP_READ_WRITE
  | MAP_OTHER
deriving DecidableEq

/-- Map state of a WebGPU staging buffer (BufferMapState). -/
inductive BufferMapState where
  | NotMapped
  | Read
  | Write
deriving DecidableEq

/-- The state BufferWebGPUImpl::Map reads and writes: the current map state and
the internal staging memory m_MappedData. -/
structure BufferWebGPUMapPort where
  mapState : BufferMapState
  mappedData : List Nat
deriving DecidableEq

/-- BufferWebGPUImpl::Map (lines 195-218) on a staging buffer: MAP_READ and
MAP_WRITE record the map state and point pMappedData at the staging memory;
MAP_READ_WRITE only logs an error (third component true) and leaves both the
map state and the caller's pointer untouched; so does the UNEXPECTED branch. -/
def BufferWebGPU_Map (buf : BufferWebGPUMapPort) (mapType : MAP_TYPE)
    (pMappedData : Option (List Nat)) :
    BufferWebGPUMapPort × Option (List Nat) × Bool :=
  match mapType with
  | MAP_TYPE.MAP_READ =>
    ({ buf with mapState := BufferMapState.Read }, some buf.mappedData, false)
  | MAP_TYPE.MAP_WRITE =>
    ({ buf with mapState := BufferMapState.Write }, some buf.mappedData, false)
  | MAP_TYPE.MAP_READ_WRITE => (buf, pMappedData, true)
  | MAP_TYPE.MAP_OTHER => (buf, pMappedData, true)

/-- The precondition VERIFY(m_MapState == BufferMapState::None) of Map: the
buffer must not already be mapped. -/
def mapNotAlreadyMapped (buf : BufferWebGPUMapPort) : Prop :=
  buf.mapState = BufferMapState.NotMapped

/-! ### Concrete example inputs used to instantiate the theorems -/

/-- Example signature at binding-group index 0 with only a static/mutable set. -/
def sigW0 : PipelineResourceSignatureVk :=
  { bindingIndex := 0, resources := [], staticMutableSetSize := 4,
    dynamicSetSize := NullSetSize }

/-- Example signature at binding-group index 2 with both descriptor sets. -/
def sigW2 : PipelineResourceSignatureVk :=
  { bindingIndex := 2, resources := [], staticMutableSetSize := 2, dynamicSetSize := 3 }

/-- Example signature at index 0 declaring one texture visible to stage 1. -/
def sigRes : PipelineResourceSignatureVk :=
  { bindingIndex := 0
    resources := [({ name := "t", shaderStages := 1,
                     varType := SHADER_RESOURCE_VARIABLE_TYPE.STATIC },
                   { bindingIndex := 0, descrSet := 0 })]
    staticMutableSetSize := 1
    dynamicSetSize := NullSetSize }

/-- Example signature at index 1 declaring one dynamic buffer, with both sets. -/
def sigDyn : PipelineResourceSignatureVk :=
  { bindingIndex := 1
    resources := [({ name := "c", shaderStages := 2,
                     varType := SHADER_RESOURCE_VARIABLE_TYPE.DYNAMIC },
                   { bindingIndex := 0, descrSet := 1 })]
    staticMutableSetSize := 3
    dynamicSetSize := 4 }

/-- Example shader stage whose bytecode references a name no signature declares. -/
def stageBad : ShaderStageVk :=
  { shaderType := 1, spirvs := [[7, 8]], resourceRefs := ["b"] }

/-- Example unmapped staging buffer. -/
def bufW : BufferWebGPUMapPort :=
  { mapState := BufferMapState.NotMapped, mappedData := [5] }

/-- Example reflection output for default-signature synthesis. -/
def reflW : DefaultSignatureContent :=
  { resources := [], staticMutableSetSize := NullSetSize, dynamicSetSize := NullSetSize }

/-! ### List helpers -/

lemma getD_set_self {α : Type} (l : List α) (i : Nat) (a d : α) (h : i < l.length) :
    (l.set i a).getD i d = a := by
  simp [List.getD_eq_getElem?_getD, List.getElem?_set_self h]

lemma getD_set_other {α : Type} (l : List α) {i j : Nat} (a : α) (d : α) (h : i ≠ j) :
    (l.set i a).getD j d = l.getD j d := by
  simp [List.getD_eq_getElem?_getD, List.getElem?_set_ne h]

lemma getD_replicate_none {α : Type} (n j : Nat) :
    (List.replicate n (none : Option α)).getD j none = none := by
  rw [List.getD_eq_getElem?_getD, List.getElem?_replicate]
  split <;> rfl

/-! ### Characterization of the descriptor-set assignment loops -/

lemma sumDescSets_nil : sumDescSets [] = 0 := rfl

lemma sumDescSets_cons_none (rest : List (Option PipelineResourceSignatureVk)) :
    sumDescSets (none :: rest) = sumDescSets rest := by
  simp [sumDescSets]

lemma sumDescSets_cons_some (s : PipelineResourceSignatureVk)
    (rest : List (Option PipelineResourceSignatureVk)) :
    sumDescSets (some s :: rest) = countDescSets s + sumDescSets rest := by
  simp [sumDescSets]

lemma baseOffset_zero (l : List (Option PipelineResourceSignatureVk)) :
    baseOffset l 0 = 0 := rfl

lemma baseOffset_cons_none (rest : List (Option PipelineResourceSignatureVk)) (i : Nat) :
    baseOffset (none :: rest) (i + 1) = baseOffset rest i := by
  simp [baseOffset, sumDescSets]

lemma baseOffset_cons_some (s : PipelineResourceSignatureVk)
    (rest : List (Option PipelineResourceSignatureVk)) (i : Nat) :
    baseOffset (some s :: rest) (i + 1) = countDescSets s + baseOffset rest i := by
  simp [baseOffset, sumDescSets]

lemma countDescSets_eq (s : PipelineResourceSignatureVk) :
    countDescSets s =
      (if s.staticMutableSetSize ≠ NullSetSize then 1 else 0) +
      (if s.dynamicSetSize ≠ NullSetSize then 1 else 0) := by
  simp only [countDescSets, List.foldl_cons, List.foldl_nil, GetDescriptorSetSize]
  split_ifs <;> omega

lemma countDescSets_le_two (s : PipelineResourceSignatureVk) : countDescSets s ≤ 2 := by
  rw [countDescSets_eq]
  split <;> split <;> omega

lemma patchLoop_snd (l : List (Option PipelineResourceSignatureVk)) :
    ∀ c, (patchLoop l c).2 = c + sumDescSets l := by
  induction l with
  | nil => intro c; simp [patchLoop, sumDescSets]
  | cons x rest ih =>
    intro c
    cases x with
    | none => simp [patchLoop, ih, sumDescSets_cons_none]
    | some s => simp [patchLoop, ih, sumDescSets_cons_some]; omega

lemma patchLoop_fst_getD (l : List (Option PipelineResourceSignatureVk)) :
    ∀ c i s, l.getD i none = some s →
      (patchLoop l c).1.getD i 0 = c + baseOffset l i := by
  induction l with
  | nil => intro c i s h; simp [List.getD] at h
  | cons x rest ih =>
    intro c i s h
    cases x with
    | none =>
      cases i with
      | zero => simp [List.getD_cons_zero] at h
      | succ i =>
        rw [List.getD_cons_succ] at h
        show (patchLoop rest c).1.getD i 0 = c + baseOffset (none :: rest) (i + 1)
        rw [ih c i s h, baseOffset_cons_none]
    | some a =>
      cases i with
      | zero => simp [patchLoop, List.getD_cons_zero, baseOffset_zero]
      | succ i =>
        rw [List.getD_cons_succ] at h
        show (patchLoop rest (c + countDescSets a)).1.getD i 0 =
          c + baseOffset (some a :: rest) (i + 1)
        rw [ih _ i s h, baseOffset_cons_some]
        omega

lemma getBindingsLoop_snd (l : List (Option PipelineResourceSignatureVk)) :
    ∀ f c, (getBindingsLoop l f c).2 = c + sumDescSets l := by
  induction l with
  | nil => intro f c; simp [getBindingsLoop, sumDescSets]
  | cons x rest ih =>
    intro f c
    cases x with
    | none => simp [getBindingsLoop, ih, sumDescSets_cons_none]
    | some s => simp [getBindingsLoop, ih, sumDescSets_cons_some]; omega

lemma flatten_map_congr {α β : Type} (l : List α) (f g : α → List β)
    (h : ∀ a ∈ l, f a = g a) : (l.map f).flatten = (l.map g).flatten := by
  rw [List.map_congr_left h]

lemma getBindingsLoop_fst (l : List (Option PipelineResourceSignatureVk)) :
    ∀ f c, (getBindingsLoop l f c).1 =
      ((List.range l.length).map (fun i =>
        match l.getD i none with
        | none => []
        | some s => (s.resources.filter (fun r => r.1.shaderStages &&& f != 0)).map
            (fun r => ResDescToPipelineResBinding r.1 r.1.shaderStages r.2.bindingIndex
              (c + baseOffset l i + r.2.descrSet)))).flatten := by
  induction l with
  | nil => intro f c; simp [getBindingsLoop]
  | cons x rest ih =>
    intro f c
    rw [List.length_cons, List.range_succ_eq_map, List.map_cons, List.flatten_cons,
      List.map_map]
    cases x with
    | none =>
      show (getBindingsLoop rest f c).1 = _
      rw [ih f c]
      simp only [List.getD_cons_zero, List.nil_append]
      refine flatten_map_congr _ _ _ ?_
      intro i _
      simp only [Function.comp_apply, Nat.succ_eq_add_one, List.getD_cons_succ]
      cases hgd : rest.getD i none with
      | none => rfl
      | some s => simp only [baseOffset_cons_none]
    | some a =>
      show ((a.resources.filter (fun r => r.1.shaderStages &&& f != 0)).map
          (fun r => ResDescToPipelineResBinding r.1 r.1.shaderStages r.2.bindingIndex
            (c + r.2.descrSet)) ++ (getBindingsLoop rest f (c + countDescSets a)).1) = _
      rw [ih f (c + countDescSets a)]
      simp only [List.getD_cons_zero, baseOffset_zero, Nat.add_zero]
      congr 1
      refine flatten_map_congr _ _ _ ?_
      intro i _
      simp only [Function.comp_apply, Nat.succ_eq_add_one, List.getD_cons_succ]
      cases hgd : rest.getD i none with
      | none => rfl
      | some s => simp only [baseOffset_cons_some, Nat.add_assoc]

lemma reporterSpec_eq (l : List (Option PipelineResourceSignatureVk)) (f : Nat) :
    (getBindingsLoop l f 0).1 = reporterBindingsSpec l f := by
  rw [getBindingsLoop_fst]
  unfold reporterBindingsSpec
  refine flatten_map_congr _ _ _ ?_
  intro i _
  cases hgd : l.getD i none with
  | none => simp only [hgd]
  | some s => simp only [hgd, Nat.zero_add]

lemma bindingsFromRemap_eq (l : List (Option PipelineResourceSignatureVk)) (f : Nat) :
    bindingsFromRemapTable l f = reporterBindingsSpec l f := by
  unfold bindingsFromRemapTable reporterBindingsSpec
  refine flatten_map_congr _ _ _ ?_
  intro i _
  cases hgd : l.getD i none with
  | none => simp only [hgd]
  | some s =>
    simp only [hgd]
    rw [patchLoop_fst_getD l 0 i s hgd, Nat.zero_add]

lemma getBindingsLoop_length (l : List (Option PipelineResourceSignatureVk)) :
    ∀ f c, (getBindingsLoop l f c).1.length =
      (((l.filterMap id).map (fun s =>
        (s.resources.filter (fun r => r.1.shaderStages &&& f != 0)).length)).sum) := by
  induction l with
  | nil => intro f c; simp [getBindingsLoop]
  | cons x rest ih =>
    intro f c
    cases x with
    | none => simpa [getBindingsLoop] using ih f c
    | some s => simp [getBindingsLoop, ih]

lemma emitSets_eq (s : PipelineResourceSignatureVk) (c : Nat) :
    emitSets s c = (List.range' c (countDescSets s), c + countDescSets s) := by
  rw [countDescSets_eq]
  simp only [emitSets, List.foldl_cons, List.foldl_nil, GetDescriptorSetSize]
  split_ifs with h1 h2 h2 <;> simp [List.range']

lemma range'_append_simple (c m n : Nat) :
    List.range' c m ++ List.range' (c + m) n = List.range' c (m + n) := by
  have h := List.range'_append c m n 1
  simp only [Nat.one_mul] at h
  rw [h, Nat.add_comm n m]

lemma descSetIndicesLoop_eq (l : List (Option PipelineResourceSignatureVk)) :
    ∀ c, descSetIndicesLoop l c = List.range' c (sumDescSets l) := by
  induction l with
  | nil => intro c; simp [descSetIndicesLoop, sumDescSets]
  | cons x rest ih =>
    intro c
    cases x with
    | none => simp [descSetIndicesLoop, ih, sumDescSets_cons_none]
    | some s =>
      show (emitSets s c).1 ++ descSetIndicesLoop rest (c + countDescSets s) = _
      rw [emitSets_eq, ih, sumDescSets_cons_some, range'_append_simple]

/-! ### Properties of the Signature Sorter -/

lemma sortLoop_length (src : List (Option PipelineResourceSignatureVk)) :
    ∀ slots cnt out, sortLoop src slots cnt = some out → out.1.length = slots.length := by
  induction src with
  | nil =>
    intro slots cnt out h
    simp only [sortLoop, Option.some.injEq] at h
    rw [← h]
  | cons x rest ih =>
    intro slots cnt out h
    cases x with
    | none => exact ih slots cnt out h
    | some s =>
      simp only [sortLoop] at h
      split_ifs at h with hb hocc
      · have := ih _ _ _ h
        rwa [List.length_set] at this

lemma sortLoop_preserve (src : List (Option PipelineResourceSignatureVk)) :
    ∀ slots cnt out, sortLoop src slots cnt = some out →
      ∀ i v, slots.getD i none = some v → out.1.getD i none = some v := by
  induction src with
  | nil =>
    intro slots cnt out h i v hv
    simp only [sortLoop, Option.some.injEq] at h
    rw [← h]
    exact hv
  | cons x rest ih =>
    intro slots cnt out h i v hv
    cases x with
    | none => exact ih slots cnt out h i v hv
    | some s =>
      simp only [sortLoop] at h
      split_ifs at h with hb hocc
      · refine ih _ _ _ h i v ?_
        have hbi : s.bindingIndex ≠ i := by
          intro e
          rw [← e] at hv
          exact hocc (by rw [hv]; rfl)
        rw [getD_set_other _ _ _ hbi]
        exact hv

lemma sortLoop_origin (src : List (Option PipelineResourceSignatureVk)) :
    ∀ slots cnt out, MAX_RESOURCE_SIGNATURES ≤ slots.length →
      sortLoop src slots cnt = some out →
      ∀ i v, out.1.getD i none = some v →
        slots.getD i none = some v ∨ (some v) ∈ src := by
  induction src with
  | nil =>
    intro slots cnt out _ h i v hv
    simp only [sortLoop, Option.some.injEq] at h
    rw [← h] at hv
    exact Or.inl hv
  | cons x rest ih =>
    intro slots cnt out hlen h i v hv
    cases x with
    | none =>
      rcases ih slots cnt out hlen h i v hv with hl | hr
      · exact Or.inl hl
      · exact Or.inr (List.mem_cons_of_mem _ hr)
    | some s =>
      simp only [sortLoop] at h
      split_ifs at h with hb hocc
      · have hlen2 : MAX_RESOURCE_SIGNATURES ≤ (slots.set s.bindingIndex (some s)).length := by
          rwa [List.length_set]
        rcases ih _ _ _ hlen2 h i v hv with hl | hr
        · by_cases hbi : s.bindingIndex = i
          · subst hbi
            rw [getD_set_self _ _ _ _ (lt_of_lt_of_le hb hlen)] at hl
            injection hl with hl
            rw [← hl]
            exact Or.inr (List.mem_cons_self _ _)
          · rw [getD_set_other _ _ _ hbi] at hl
            exact Or.inl hl
        · exact Or.inr (List.mem_cons_of_mem _ hr)

lemma countP_set_some (l : List (Option PipelineResourceSignatureVk)) :
    ∀ i s, i < l.length → l.getD i none = none →
      (l.set i (some s)).countP (fun o => o.isSome) =
        l.countP (fun o => o.isSome) + 1 := by
  induction l with
  | nil => intro i s h _; exact absurd h (by simp)
  | cons x rest ih =>
    intro i s hlt hnone
    cases i with
    | zero =>
      rw [List.getD_cons_zero] at hnone
      subst hnone
      simp [List.countP_cons]
    | succ i =>
      rw [List.getD_cons_succ] at hnone
      have hlt2 : i < rest.length := by
        simpa [Nat.succ_lt_succ_iff] using hlt
      simp only [List.set_cons_succ, List.countP_cons, ih i s hlt2 hnone]
      omega

lemma sortLoop_countP (src : List (Option PipelineResourceSignatureVk)) :
    ∀ slots cnt out, MAX_RESOURCE_SIGNATURES ≤ slots.length →
      sortLoop src slots cnt = some out →
      out.1.countP (fun o => o.isSome) =
        slots.countP (fun o => o.isSome) + src.countP (fun o => o.isSome) := by
  induction src with
  | nil =>
    intro slots cnt out _ h
    simp only [sortLoop, Option.some.injEq] at h
    rw [← h]
    simp
  | cons x rest ih =>
    intro slots cnt out hlen h
    cases x with
    | none =>
      rw [ih slots cnt out hlen h]
      simp [List.countP_cons]
    | some s =>
      simp only [sortLoop] at h
      split_ifs at h with hb hocc
      · have hlen2 : MAX_RESOURCE_SIGNATURES ≤ (slots.set s.bindingIndex (some s)).length := by
          rwa [List.length_set]
        have hnone : slots.getD s.bindingIndex none = none := by
          cases hx : slots.getD s.bindingIndex none with
          | none => rfl
          | some v => exact absurd (by rw [hx]; rfl) hocc
        rw [ih _ _ _ hlen2 h,
          countP_set_some slots s.bindingIndex s (lt_of_lt_of_le hb hlen) hnone]
        simp [List.countP_cons]
        omega

lemma sortLoop_max (src : List (Option PipelineResourceSignatureVk)) :
    ∀ slots cnt out, sortLoop src slots cnt = some out →
      out.2 = src.foldl (fun m os =>
        match os with
        | none => m
        | some s => max m (s.bindingIndex + 1)) cnt := by
  induction src with
  | nil =>
    intro slots cnt out h
    simp only [sortLoop, Option.some.injEq] at h
    rw [← h]
    rfl
  | cons x rest ih =>
    intro slots cnt out h
    cases x with
    | none => exact ih slots cnt out h
    | some s =>
      simp only [sortLoop] at h
      split_ifs at h with hb hocc
      · exact ih _ _ _ h

lemma sortLoop_inrange (src : List (Option PipelineResourceSignatureVk)) :
    ∀ slots cnt out, sortLoop src slots cnt = some out →
      ∀ s, (some s) ∈ src → s.bindingIndex < MAX_RESOURCE_SIGNATURES := by
  induction src with
  | nil => intro slots cnt out _ s hs; exact absurd hs (by simp)
  | cons x rest ih =>
    intro slots cnt out h s hs
    cases x with
    | none =>
      rcases List.mem_cons.mp hs with he | hm
      · exact absurd he (by simp)
      · exact ih slots cnt out h s hm
    | some a =>
      simp only [sortLoop] at h
      split_ifs at h with hb hocc
      · rcases List.mem_cons.mp hs with he | hm
        · injection he with he
          rw [← he] at hb
          exact hb
        · exact ih _ _ _ h s hm

lemma sortLoop_free (src : List (Option PipelineResourceSignatureVk)) :
    ∀ slots cnt out, MAX_RESOURCE_SIGNATURES ≤ slots.length →
      sortLoop src slots cnt = some out →
      ∀ s, (some s) ∈ src → slots.getD s.bindingIndex none = none := by
  induction src with
  | nil => intro slots cnt out _ _ s hs; exact absurd hs (by simp)
  | cons x rest ih =>
    intro slots cnt out hlen h s hs
    cases x with
    | none =>
      rcases List.mem_cons.mp hs with he | hm
      · exact absurd he (by simp)
      · exact ih slots cnt out hlen h s hm
    | some a =>
      simp only [sortLoop] at h
      split_ifs at h with hb hocc
      · have hlen2 : MAX_RESOURCE_SIGNATURES ≤ (slots.set a.bindingIndex (some a)).length := by
          rwa [List.length_set]
        rcases List.mem_cons.mp hs with he | hm
        · injection he with he
          subst he
          cases hx : slots.getD s.bindingIndex none with
          | none => rfl
          | some v => exact absurd (by rw [hx]; rfl) hocc
        · have hfree := ih _ _ _ hlen2 h s hm
          by_cases hbi : a.bindingIndex = s.bindingIndex
          · rw [hbi, getD_set_self _ _ _ _ (by rw [← hbi]; exact lt_of_lt_of_le hb hlen)] at hfree
            exact absurd hfree (by simp)
          · rwa [getD_set_other _ _ _ hbi] at hfree

lemma sortLoop_pairwise (src : List (Option PipelineResourceSignatureVk)) :
    ∀ slots cnt out, MAX_RESOURCE_SIGNATURES ≤ slots.length →
      sortLoop src slots cnt = some out →
      src.Pairwise (fun x y => ∀ a b, x = some a → y = some b →
        a.bindingIndex ≠ b.bindingIndex) := by
  induction src with
  | nil => intro slots cnt out _ _; exact List.Pairwise.nil
  | cons x rest ih =>
    intro slots cnt out hlen h
    cases x with
    | none =>
      refine List.Pairwise.cons ?_ (ih slots cnt out hlen h)
      intro y _ a b hx _
      exact absurd hx (by simp)
    | some s =>
      simp only [sortLoop] at h
      split_ifs at h with hb hocc
      · have hlen2 : MAX_RESOURCE_SIGNATURES ≤ (slots.set s.bindingIndex (some s)).length := by
          rwa [List.length_set]
        refine List.Pairwise.cons ?_ (ih _ _ _ hlen2 h)
        intro y hy a b hx hyb heq
        injection hx with hx
        subst hx
        have hbmem : (some b) ∈ rest := by rw [← hyb]; exact hy
        have hfree := sortLoop_free rest _ _ _ hlen2 h b hbmem
        rw [← heq, getD_set_self _ _ _ _ (lt_of_lt_of_le hb hlen)] at hfree
        exact absurd hfree (by simp)

lemma sortLoop_placed (src : List (Option PipelineResourceSignatureVk)) :
    ∀ slots cnt out, MAX_RESOURCE_SIGNATURES ≤ slots.length →
      sortLoop src slots cnt = some out →
      ∀ s, (some s) ∈ src → out.1.getD s.bindingIndex none = some s := by
  induction src with
  | nil => intro slots cnt out _ _ s hs; exact absurd hs (by simp)
  | cons x rest ih =>
    intro slots cnt out hlen h s hs
    cases x with
    | none =>
      rcases List.mem_cons.mp hs with he | hm
      · exact absurd he (by simp)
      · exact ih slots cnt out hlen h s hm
    | some a =>
      simp only [sortLoop] at h
      split_ifs at h with hb hocc
      · have hlen2 : MAX_RESOURCE_SIGNATURES ≤ (slots.set a.bindingIndex (some a)).length := by
          rwa [List.length_set]
        rcases List.mem_cons.mp hs with he | hm
        · injection he with he
          subst he
          refine sortLoop_preserve rest _ _ _ h s.bindingIndex s ?_
          exact getD_set_self _ _ _ _ (lt_of_lt_of_le hb hlen)
        · exact ih _ _ _ hlen2 h s hm

lemma sortLoop_slotinv (src : List (Option PipelineResourceSignatureVk)) :
    ∀ slots cnt out, MAX_RESOURCE_SIGNATURES ≤ slots.length →
      (∀ i v, slots.getD i none = some v → v.bindingIndex = i) →
      sortLoop src slots cnt = some out →
      ∀ i v, out.1.getD i none = some v → v.bindingIndex = i := by
  induction src with
  | nil =>
    intro slots cnt out _ hinv h i v hv
    simp only [sortLoop, Option.some.injEq] at h
    rw [← h] at hv
    exact hinv i v hv
  | cons x rest ih =>
    intro slots cnt out hlen hinv h i v hv
    cases x with
    | none => exact ih slots cnt out hlen hinv h i v hv
    | some s =>
      simp only [sortLoop] at h
      split_ifs at h with hb hocc
      · have hlen2 : MAX_RESOURCE_SIGNATURES ≤ (slots.set s.bindingIndex (some s)).length := by
          rwa [List.length_set]
        refine ih _ _ _ hlen2 ?_ h i v hv
        intro j w hw
        by_cases hbj : s.bindingIndex = j
        · rw [hbj, getD_set_self _ _ _ _ (by rw [← hbj]; exact lt_of_lt_of_le hb hlen)] at hw
          injection hw with hw
          rw [← hw, ← hbj]
        · rw [getD_set_other _ _ _ hbj] at hw
          exact hinv j w hw

lemma sortLoop_cnt_le (src : List (Option PipelineResourceSignatureVk)) :
    ∀ slots cnt out, cnt ≤ MAX_RESOURCE_SIGNATURES →
      sortLoop src slots cnt = some out → out.2 ≤ MAX_RESOURCE_SIGNATURES := by
  induction src with
  | nil =>
    intro slots cnt out hc h
    simp only [sortLoop, Option.some.injEq] at h
    rw [← h]
    exact hc
  | cons x rest ih =>
    intro slots cnt out hc h
    cases x with
    | none => exact ih slots cnt out hc h
    | some s =>
      simp only [sortLoop] at h
      split_ifs at h with hb hocc
      · exact ih _ _ _ (by omega) h

lemma sortLoop_beyond (src : List (Option PipelineResourceSignatureVk)) :
    ∀ slots cnt out, (∀ j, cnt ≤ j → slots.getD j none = none) →
      sortLoop src slots cnt = some out →
      ∀ j, out.2 ≤ j → out.1.getD j none = none := by
  induction src with
  | nil =>
    intro slots cnt out hbey h j hj
    simp only [sortLoop, Option.some.injEq] at h
    rw [← h] at hj ⊢
    exact hbey j hj
  | cons x rest ih =>
    intro slots cnt out hbey h j hj
    cases x with
    | none => exact ih slots cnt out hbey h j hj
    | some s =>
      simp only [sortLoop] at h
      split_ifs at h with hb hocc
      · refine ih _ _ _ ?_ h j hj
        intro j2 hj2
        have hne : s.bindingIndex ≠ j2 := by omega
        rw [getD_set_other _ _ _ hne]
        exact hbey j2 (by omega)

lemma sort_length (src slots : List (Option PipelineResourceSignatureVk)) (cnt : Nat)
    (h : SortResourceSignatures src = some (slots, cnt)) :
    slots.length = MAX_RESOURCE_SIGNATURES := by
  have := sortLoop_length src _ 0 (slots, cnt) h
  simpa using this

lemma sort_slotinv (src slots : List (Option PipelineResourceSignatureVk)) (cnt : Nat)
    (h : SortResourceSignatures src = some (slots, cnt)) :
    ∀ i v, slots.getD i none = some v → v.bindingIndex = i := by
  refine sortLoop_slotinv src _ 0 (slots, cnt) (by simp) ?_ h
  intro i v hv
  rw [getD_replicate_none] at hv
  exact absurd hv (by simp)

lemma sort_beyond (src slots : List (Option PipelineResourceSignatureVk)) (cnt : Nat)
    (h : SortResourceSignatures src = some (slots, cnt)) :
    ∀ j, cnt ≤ j → slots.getD j none = none := by
  intro j hj
  exact sortLoop_beyond src _ 0 (slots, cnt) (fun j2 _ => getD_replicate_none _ _) h j hj

lemma countP_replicate_none (n : Nat) :
    (List.replicate n (none : Option PipelineResourceSignatureVk)).countP
      (fun o => o.isSome) = 0 := by
  induction n with
  | zero => rfl
  | succ n ih => simp [List.replicate_succ, List.countP_cons, ih]

lemma sort_countP (src slots : List (Option PipelineResourceSignatureVk)) (cnt : Nat)
    (h : SortResourceSignatures src = some (slots, cnt)) :
    slots.countP (fun o => o.isSome) = src.countP (fun o => o.isSome) := by
  have := sortLoop_countP src _ 0 (slots, cnt) (by simp) h
  rwa [countP_replicate_none, Nat.zero_add] at this

lemma sort_origin (src slots : List (Option PipelineResourceSignatureVk)) (cnt : Nat)
    (h : SortResourceSignatures src = some (slots, cnt)) :
    ∀ i v, slots.getD i none = some v → (some v) ∈ src := by
  intro i v hv
  rcases sortLoop_origin src _ 0 (slots, cnt) (by simp) h i v hv with hl | hr
  · rw [getD_replicate_none] at hl
    exact absurd hl (by simp)
  · exact hr

lemma sort_cnt_le (src slots : List (Option PipelineResourceSignatureVk)) (cnt : Nat)
    (h : SortResourceSignatures src = some (slots, cnt)) :
    cnt ≤ MAX_RESOURCE_SIGNATURES :=
  sortLoop_cnt_le src _ 0 (slots, cnt) (by omega) h

lemma filterMap_take_eq (l : List (Option PipelineResourceSignatureVk)) (n : Nat)
    (h : ∀ j, n ≤ j → l.getD j none = none) :
    (l.take n).filterMap id = l.filterMap id := by
  conv_rhs => rw [← List.take_append_drop n l]
  rw [List.filterMap_append]
  have hdrop : (l.drop n).filterMap id = [] := by
    rw [List.filterMap_eq_nil_iff]
    intro a ha
    rcases List.mem_iff_getElem.mp ha with ⟨i, hi, hget⟩
    have hlt : n + i < l.length := by
      simp only [List.length_drop] at hi
      omega
    have : l.getD (n + i) none = a := by
      rw [List.getD_eq_getElem?_getD, List.getElem?_eq_getElem hlt]
      rw [← List.getElem_drop]
      · rw [hget]; rfl
    rw [h (n + i) (by omega)] at this
    rw [← this]
    rfl
  rw [hdrop, List.append_nil]

lemma length_filterMap_id_eq_countP (l : List (Option PipelineResourceSignatureVk)) :
    (l.filterMap id).length = l.countP (fun o => o.isSome) := by
  induction l with
  | nil => rfl
  | cons x rest ih => cases x <;> simp [List.countP_cons, ih]

lemma length_le_sum (l : List Nat) (h : ∀ x ∈ l, 1 ≤ x) : l.length ≤ l.sum := by
  induction l with
  | nil => simp
  | cons x rest ih =>
    have h1 := h x (by simp)
    have h2 := ih (fun y hy => h y (by simp [hy]))
    simp only [List.length_cons, List.sum_cons]
    omega

lemma mk_staticSetSize (i : Nat) (rs : List (String × Nat × SHADER_RESOURCE_VARIABLE_TYPE)) :
    (mkSignatureVk i rs).staticMutableSetSize =
      if rs.any (fun r => !(isDynamicVar r.2.2)) then
        rs.countP (fun r => !(isDynamicVar r.2.2))
      else NullSetSize := rfl

lemma mk_dynamicSetSize (i : Nat) (rs : List (String × Nat × SHADER_RESOURCE_VARIABLE_TYPE)) :
    (mkSignatureVk i rs).dynamicSetSize =
      if rs.any (fun r => isDynamicVar r.2.2) then
        rs.countP (fun r => isDynamicVar r.2.2)
      else NullSetSize := rfl

lemma one_le_countDescSets_mk (i : Nat)
    (rs : List (String × Nat × SHADER_RESOURCE_VARIABLE_TYPE))
    (hne : rs ≠ []) (hlt : rs.length < NullSetSize) :
    1 ≤ countDescSets (mkSignatureVk i rs) := by
  rw [countDescSets_eq, mk_staticSetSize, mk_dynamicSetSize]
  rcases rs with _ | ⟨r, rest⟩
  · exact absurd rfl hne
  · by_cases hd : isDynamicVar r.2.2
    · have hasDyn : (r :: rest).any (fun x => isDynamicVar x.2.2) = true := by
        simp [hd]
      have hle : (r :: rest).countP (fun x => isDynamicVar x.2.2) ≤ (r :: rest).length :=
        List.countP_le_length _
      simp only [hasDyn, if_true]
      split_ifs <;> omega
    · have hasSM : (r :: rest).any (fun x => !(isDynamicVar x.2.2)) = true := by
        simp only [List.any_cons, hd, Bool.not_false, Bool.true_or]
      have hle : (r :: rest).countP (fun x => !(isDynamicVar x.2.2)) ≤ (r :: rest).length :=
        List.countP_le_length _
      simp only [hasSM, if_true]
      split_ifs <;> omega

/-! ### Properties of the deduplicated bytecode store -/

lemma serializeLookup_some (store : List ShaderBlobKey) :
    ∀ k j i, serializeLookup store k j = some i → j ≤ i ∧ store[i - j]? = some k := by
  induction store with
  | nil => intro k j i h; exact absurd h (by simp [serializeLookup])
  | cons e rest ih =>
    intro k j i h
    simp only [serializeLookup] at h
    split_ifs at h with he
    · injection h with h
      subst h
      subst he
      refine ⟨le_refl _, ?_⟩
      simp
    · obtain ⟨h1, h2⟩ := ih k (j + 1) i h
      refine ⟨by omega, ?_⟩
      have harith : i - j = (i - (j + 1)) + 1 := by omega
      rw [harith, List.getElem?_cons_succ]
      exact h2

lemma serializeLookup_append_self (store : List ShaderBlobKey) :
    ∀ k j, serializeLookup store k j = none →
      serializeLookup (store ++ [k]) k j = some (j + store.length) := by
  induction store with
  | nil => intro k j _; simp [serializeLookup]
  | cons e rest ih =>
    intro k j h
    rw [List.cons_append]
    simp only [serializeLookup] at h ⊢
    split_ifs at h ⊢ with he
    · rw [ih k (j + 1) h]
      congr 1
      simp only [List.length_cons]
      omega

lemma SerializeShaderBytecode_getElem (store : List ShaderBlobKey) (k : ShaderBlobKey)
    (s1 : List ShaderBlobKey) (i1 : Nat) (h : SerializeShaderBytecode store k = (s1, i1)) :
    s1[i1]? = some k := by
  unfold SerializeShaderBytecode at h
  cases hl : serializeLookup store k 0 with
  | some i =>
    rw [hl] at h
    injection h with h1 h2
    subst h1
    subst h2
    have := (serializeLookup_some store k 0 i hl).2
    simpa using this
  | none =>
    rw [hl] at h
    injection h with h1 h2
    subst h1
    subst h2
    exact List.getElem?_concat_length store k

lemma SerializeShaderBytecode_keeps (store : List ShaderBlobKey) (k : ShaderBlobKey)
    (s1 : List ShaderBlobKey) (i1 : Nat) (h : SerializeShaderBytecode store k = (s1, i1)) :
    ∀ j, j < store.length → s1[j]? = store[j]? := by
  unfold SerializeShaderBytecode at h
  cases hl : serializeLookup store k 0 with
  | some i =>
    rw [hl] at h
    injection h with h1 h2
    subst h1
    intro j _
    rfl
  | none =>
    rw [hl] at h
    injection h with h1 h2
    subst h1
    intro j hj
    exact List.getElem?_append_left hj

lemma SerializeShaderBytecode_idem (store : List ShaderBlobKey) (k : ShaderBlobKey)
    (s1 : List ShaderBlobKey) (i1 : Nat) (h : SerializeShaderBytecode store k = (s1, i1)) :
    SerializeShaderBytecode s1 k = (s1, i1) := by
  unfold SerializeShaderBytecode at h ⊢
  cases hl : serializeLookup store k 0 with
  | some i =>
    rw [hl] at h
    injection h with h1 h2
    subst h1
    subst h2
    rw [hl]
  | none =>
    rw [hl] at h
    injection h with h1 h2
    subst h1
    subst h2
    rw [serializeLookup_append_self store k 0 hl, Nat.zero_add]

lemma sumDescSets_le (l : List (Option PipelineResourceSignatureVk)) :
    sumDescSets l ≤ 2 * l.length := by
  induction l with
  | nil => simp [sumDescSets]
  | cons x rest ih =>
    cases x with
    | none =>
      rw [sumDescSets_cons_none]
      simp only [List.length_cons]
      omega
    | some s =>
      rw [sumDescSets_cons_some]
      have := countDescSets_le_two s
      simp only [List.length_cons]
      omega

/-! ### Claim theorems -/

/-- C1: For every signature set, the descriptor-set numbering computed by the
archiving path (PatchShadersVk's BindIndexToDescSetIndex table and its running
DescSetLayoutCount) and the indices reported by the live-query path
(GetPipelineResourceBindingsVk's running DescSetLayoutCount + ResAttr.DescrSet
per resource) are identical: the reporter's output is exactly the bindings
implied by the archiver's remap table, and its final counter equals the
archiver's DescSetLayoutCount. -/
theorem archiver_reporter_numbering_agree
    (S slots : List (Option PipelineResourceSignatureVk)) (cnt st : Nat)
    (h : SortResourceSignatures S = some (slots, cnt)) :
    GetPipelineResourceBindingsVk S st =
      some (bindingsFromRemapTable (slots.take cnt) (normalizeShaderStages st),
        (patchLoop (slots.take cnt) 0).2) := by
  simp only [GetPipelineResourceBindingsVk, h]
  congr 1
  refine Prod.ext ?_ ?_
  · rw [reporterSpec_eq, bindingsFromRemap_eq]
  · rw [getBindingsLoop_snd, patchLoop_snd]

/-- C1 witness: the consistency law instantiated at a concrete two-signature
set queried with the SHADER_TYPE_UNKNOWN filter. -/
theorem archiver_reporter_numbering_agree_inst :
    SortResourceSignatures [some sigRes, some sigDyn] =
      some ([some sigRes, some sigDyn, none, none, none, none, none, none], 2) ∧
    GetPipelineResourceBindingsVk [some sigRes, some sigDyn] 0 =
      some (bindingsFromRemapTable
        (([some sigRes, some sigDyn, none, none, none, none, none, none] :
          List (Option PipelineResourceSignatureVk)).take 2)
        (normalizeShaderStages 0),
        (patchLoop (([some sigRes, some sigDyn, none, none, none, none, none, none] :
          List (Option PipelineResourceSignatureVk)).take 2) 0).2) :=
  ⟨by decide, archiver_reporter_numbering_agree [some sigRes, some sigDyn]
    [some sigRes, some sigDyn, none, none, none, none, none, none] 2 0 (by decide)⟩

/-- C2: the Descriptor Layout Assigner walks the slots in increasing
binding-group order skipping empty slots: a present signature's remap entry is
the number of descriptor sets of the present signatures in earlier slots, the
final counter is the total over all present signatures, and each signature
contributes one per mutability-class descriptor set it actually has
(descriptor-set size different from ~0u). -/
theorem descriptor_layout_assigner_correct
    (l : List (Option PipelineResourceSignatureVk)) :
    ((patchLoop l 0).2 = sumDescSets l) ∧
    (∀ i s, l.getD i none = some s → (patchLoop l 0).1.getD i 0 = baseOffset l i) ∧
    (∀ s, countDescSets s =
      (if GetDescriptorSetSize s DESCRIPTOR_SET_ID.STATIC_MUTABLE ≠ NullSetSize
        then 1 else 0) +
      (if GetDescriptorSetSize s DESCRIPTOR_SET_ID.DYNAMIC ≠ NullSetSize
        then 1 else 0)) := by
  refine ⟨?_, ?_, ?_⟩
  · rw [patchLoop_snd, Nat.zero_add]
  · intro i s h
    rw [patchLoop_fst_getD l 0 i s h, Nat.zero_add]
  · intro s
    exact countDescSets_eq s

/-- C2 witness: the remap-entry characterization instantiated at slot 2 of a
concrete slot array with an empty slot in the middle. -/
theorem descriptor_layout_assigner_correct_inst :
    ([some sigW0, none, some sigW2].getD 2 none = some sigW2) ∧
    (patchLoop [some sigW0, none, some sigW2] 0).1.getD 2 0 =
      baseOffset [some sigW0, none, some sigW2] 2 :=
  ⟨by decide, (descriptor_layout_assigner_correct _).2.1 2 sigW2 (by decide)⟩

/-- C3: after the sorter succeeds, the descriptor-set indices assigned by the
PatchShadersVk loop form the contiguous range 0 .. DescSetLayoutCount - 1, and
the final counter is bounded by 2 * MAX_RESOURCE_SIGNATURES on both the
archiving and the reporting path. -/
theorem assigned_desc_sets_contiguous_bounded
    (src slots : List (Option PipelineResourceSignatureVk)) (cnt f : Nat)
    (h : SortResourceSignatures src = some (slots, cnt)) :
    descSetIndicesLoop (slots.take cnt) 0 =
      List.range ((patchLoop (slots.take cnt) 0).2) ∧
    (patchLoop (slots.take cnt) 0).2 ≤ 2 * MAX_RESOURCE_SIGNATURES ∧
    (getBindingsLoop (slots.take cnt) f 0).2 ≤ 2 * MAX_RESOURCE_SIGNATURES := by
  have hsum : (patchLoop (slots.take cnt) 0).2 = sumDescSets (slots.take cnt) := by
    rw [patchLoop_snd, Nat.zero_add]
  have hlen : (slots.take cnt).length ≤ MAX_RESOURCE_SIGNATURES := by
    rw [List.length_take]
    have := sort_length src slots cnt h
    omega
  have hb : sumDescSets (slots.take cnt) ≤ 2 * MAX_RESOURCE_SIGNATURES := by
    have h1 := sumDescSets_le (slots.take cnt)
    omega
  refine ⟨?_, by omega, ?_⟩
  · rw [descSetIndicesLoop_eq, hsum, List.range_eq_range']
  · rw [getBindingsLoop_snd, Nat.zero_add]
    omega

/-- C3 witness: contiguity and the bound instantiated at a one-signature set. -/
theorem assigned_desc_sets_contiguous_bounded_inst :
    SortResourceSignatures [some sigW0] =
      some ([some sigW0, none, none, none, none, none, none, none], 1) ∧
    (descSetIndicesLoop (([some sigW0, none, none, none, none, none, none, none] :
        List (Option PipelineResourceSignatureVk)).take 1) 0 =
      List.range ((patchLoop (([some sigW0, none, none, none, none, none, none, none] :
        List (Option PipelineResourceSignatureVk)).take 1) 0).2) ∧
    (patchLoop (([some sigW0, none, none, none, none, none, none, none] :
        List (Option PipelineResourceSignatureVk)).take 1) 0).2 ≤
      2 * MAX_RESOURCE_SIGNATURES ∧
    (getBindingsLoop (([some sigW0, none, none, none, none, none, none, none] :
        List (Option PipelineResourceSignatureVk)).take 1) 3 0).2 ≤
      2 * MAX_RESOURCE_SIGNATURES) :=
  ⟨by decide, assigned_desc_sets_contiguous_bounded [some sigW0]
    [some sigW0, none, none, none, none, none, none, none] 1 3 (by decide)⟩

/-- C4: when the shader-resource remap fails (any reference of any stage is
unresolved), PatchShadersVk aborts the whole build: it returns false, the blob
store is returned unchanged, and no shader indices are produced. -/
theorem patch_aborts_on_remap_failure
    (sigs : List PipelineResourceSignatureVk)
    (reflected : Option DefaultSignatureContent)
    (stages : List ShaderStageVk) (store : List ShaderBlobKey)
    (useSigs : List PipelineResourceSignatureVk)
    (slots : List (Option PipelineResourceSignatureVk)) (cnt : Nat) (msg : String)
    (hsel : selectSignatures sigs reflected = some useSigs)
    (hsort : SortResourceSignatures (useSigs.map some) = some (slots, cnt))
    (hremap : RemapShaderResources (slots.take cnt)
      ((patchLoop (slots.take cnt) 0).1) stages = Except.error msg) :
    PatchShadersVk sigs reflected stages store = (false, store, none) := by
  simp only [PatchShadersVk, hsel, hsort, hremap]

/-- C4 witness: a stage referencing an undeclared resource name makes the build
fail atomically with the store untouched. -/
theorem patch_aborts_on_remap_failure_inst :
    (selectSignatures [sigRes] none = some [sigRes]) ∧
    (SortResourceSignatures ([sigRes].map some) =
      some ([some sigRes, none, none, none, none, none, none, none], 1)) ∧
    (RemapShaderResources
      (([some sigRes, none, none, none, none, none, none, none] :
        List (Option PipelineResourceSignatureVk)).take 1)
      ((patchLoop (([some sigRes, none, none, none, none, none, none, none] :
        List (Option PipelineResourceSignatureVk)).take 1) 0).1)
      [stageBad] = Except.error "b") ∧
    PatchShadersVk [sigRes] none [stageBad] [] = (false, [], none) :=
  ⟨rfl, by decide, rfl,
    patch_aborts_on_remap_failure [sigRes] none [stageBad] [] [sigRes]
      [some sigRes, none, none, none, none, none, none, none] 1 "b"
      rfl (by decide) rfl⟩

/-- C5: the Signature Sorter places every non-null input signature at the slot
given by its binding index, every filled slot holds a signature whose declared
binding index equals the slot index, the returned count is the maximum binding
index + 1 over the inputs, and success implies all binding indices are in range
and pairwise distinct (so a duplicate or out-of-range index can only produce
the error outcome, with no output retained). -/
theorem sort_resource_signatures_correct
    (src slots : List (Option PipelineResourceSignatureVk)) (cnt : Nat)
    (h : SortResourceSignatures src = some (slots, cnt)) :
    (∀ s, (some s) ∈ src → slots.getD s.bindingIndex none = some s) ∧
    (∀ i v, slots.getD i none = some v → v.bindingIndex = i) ∧
    (cnt = src.foldl (fun m os =>
      match os with
      | none => m
      | some s => max m (s.bindingIndex + 1)) 0) ∧
    (∀ s, (some s) ∈ src → s.bindingIndex < MAX_RESOURCE_SIGNATURES) ∧
    src.Pairwise (fun x y => ∀ a b, x = some a → y = some b →
      a.bindingIndex ≠ b.bindingIndex) := by
  refine ⟨?_, sort_slotinv src slots cnt h, ?_, ?_, ?_⟩
  · intro s hs
    exact sortLoop_placed src _ 0 (slots, cnt) (by simp) h s hs
  · exact sortLoop_max src _ 0 (slots, cnt) h
  · intro s hs
    exact sortLoop_inrange src _ 0 (slots, cnt) h s hs
  · exact sortLoop_pairwise src _ 0 (slots, cnt) (by simp) h

/-- C5 witness: sorting an unordered two-signature list places each signature
at its declared group slot and returns max index + 1 = 3. -/
theorem sort_resource_signatures_correct_inst :
    (SortResourceSignatures [some sigW2, some sigW0] =
      some ([some sigW0, none, some sigW2, none, none, none, none, none], 3)) ∧
    (([some sigW0, none, some sigW2, none, none, none, none, none] :
        List (Option PipelineResourceSignatureVk)).getD sigW2.bindingIndex none =
      some sigW2) ∧
    (3 = ([some sigW2, some sigW0] :
        List (Option PipelineResourceSignatureVk)).foldl (fun m os =>
      match os with
      | none => m
      | some s => max m (s.bindingIndex + 1)) 0) :=
  ⟨by decide,
    (sort_resource_signatures_correct [some sigW2, some sigW0]
      [some sigW0, none, some sigW2, none, none, none, none, none] 3 (by decide)).1
      sigW2 (by decide),
    (sort_resource_signatures_correct [some sigW2, some sigW0]
      [some sigW0, none, some sigW2, none, none, none, none, none] 3 (by decide)).2.2.1⟩

/-- C6: the Runtime Binding Reporter emits exactly one record per declared
resource whose stage mask intersects the filter (SHADER_TYPE_UNKNOWN meaning
all stages), each record carrying the final descriptor set computed as the
signature's running-counter base plus the resource's signature-relative set;
the record count is the sum over present signatures of their passing-resource
counts. -/
theorem reporter_bindings_correct
    (infoSigs slots : List (Option PipelineResourceSignatureVk)) (cnt st : Nat)
    (h : SortResourceSignatures infoSigs = some (slots, cnt)) :
    GetPipelineResourceBindingsVk infoSigs st =
      some (reporterBindingsSpec (slots.take cnt) (normalizeShaderStages st),
        sumDescSets (slots.take cnt)) ∧
    (reporterBindingsSpec (slots.take cnt) (normalizeShaderStages st)).length =
      (((slots.take cnt).filterMap id).map (fun s =>
        (s.resources.filter (fun r =>
          r.1.shaderStages &&& normalizeShaderStages st != 0)).length)).sum := by
  constructor
  · simp only [GetPipelineResourceBindingsVk, h]
    congr 1
    refine Prod.ext ?_ ?_
    · rw [reporterSpec_eq]
    · rw [getBindingsLoop_snd, Nat.zero_add]
  · rw [← reporterSpec_eq, getBindingsLoop_length]

/-- C6 witness: the reporter contract instantiated at a two-signature set with
a stage filter that keeps only one of the two declared resources. -/
theorem reporter_bindings_correct_inst :
    (SortResourceSignatures [some sigRes, some sigDyn] =
      some ([some sigRes, some sigDyn, none, none, none, none, none, none], 2)) ∧
    (GetPipelineResourceBindingsVk [some sigRes, some sigDyn] 2 =
      some (reporterBindingsSpec
        (([some sigRes, some sigDyn, none, none, none, none, none, none] :
          List (Option PipelineResourceSignatureVk)).take 2)
        (normalizeShaderStages 2),
        sumDescSets (([some sigRes, some sigDyn, none, none, none, none, none, none] :
          List (Option PipelineResourceSignatureVk)).take 2))) :=
  ⟨by decide,
    (reporter_bindings_correct [some sigRes, some sigDyn]
      [some sigRes, some sigDyn, none, none, none, none, none, none] 2 2
      (by decide)).1⟩

/-- C7: exactly when zero resource signatures are supplied, PatchShadersVk
synthesizes one default signature: a failed synthesis aborts the build before
any layout computation; a successful one yields a single-element signature list
whose signature sits at binding-group index 0 and occupies slot 0 of the sorted
array with a used-slot count of 1; a non-empty signature list is passed through
unchanged with no synthesis. -/
theorem default_signature_synthesis
    (stages : List ShaderStageVk) (store : List ShaderBlobKey)
    (b : DefaultSignatureContent) (r : Option DefaultSignatureContent)
    (sigs : List PipelineResourceSignatureVk) :
    (PatchShadersVk [] none stages store = (false, store, none)) ∧
    (selectSignatures [] (some b) = some [CreateDefaultResourceSignatureVk b]) ∧
    ((CreateDefaultResourceSignatureVk b).bindingIndex = 0) ∧
    (SortResourceSignatures [some (CreateDefaultResourceSignatureVk b)] =
      some ((List.replicate MAX_RESOURCE_SIGNATURES none).set 0
        (some (CreateDefaultResourceSignatureVk b)), 1)) ∧
    (sigs ≠ [] → selectSignatures sigs r = some sigs) := by
  refine ⟨rfl, rfl, rfl, rfl, ?_⟩
  intro hne
  have hlen : sigs.length ≠ 0 := by
    simpa [List.length_eq_zero] using hne
  unfold selectSignatures
  rw [if_neg hlen]

/-- C7 witness: a non-empty caller-supplied signature list disables default
synthesis and is used as is. -/
theorem default_signature_synthesis_inst :
    (([sigW0] : List PipelineResourceSignatureVk) ≠ []) ∧
    selectSignatures [sigW0] none = some [sigW0] :=
  ⟨by decide,
    (default_signature_synthesis [] [] reflW none [sigW0]).2.2.2.2 (by decide)⟩

/-- C8: archiving a blob identical in backend tag, stage kind and byte content
to an already archived one returns the same index and leaves the store exactly
as it was; a blob differing in any of the three components receives a distinct
index, with both blobs stored under their own entries. -/
theorem serialize_shader_bytecode_dedup
    (store : List ShaderBlobKey) (k k2 : ShaderBlobKey)
    (s1 : List ShaderBlobKey) (i1 : Nat)
    (h : SerializeShaderBytecode store k = (s1, i1)) :
    (SerializeShaderBytecode s1 k = (s1, i1)) ∧
    (k2 ≠ k →
      (SerializeShaderBytecode s1 k2).2 ≠ i1 ∧
      (SerializeShaderBytecode s1 k2).1[i1]? = some k ∧
      (SerializeShaderBytecode s1 k2).1[(SerializeShaderBytecode s1 k2).2]? =
        some k2) := by
  have hk : s1[i1]? = some k := SerializeShaderBytecode_getElem store k s1 i1 h
  have hi1lt : i1 < s1.length := by
    rw [List.getElem?_eq_some_iff] at hk
    rcases hk with ⟨hlt, _⟩
    exact hlt
  have hk2 : s1[i1]? = some k := SerializeShaderBytecode_getElem store k s1 i1 h
  refine ⟨SerializeShaderBytecode_idem store k s1 i1 h, ?_⟩
  intro hne
  have hsecond : (SerializeShaderBytecode s1 k2).1[(SerializeShaderBytecode s1 k2).2]? =
      some k2 :=
    SerializeShaderBytecode_getElem s1 k2 _ _ rfl
  have hkeep : (SerializeShaderBytecode s1 k2).1[i1]? = s1[i1]? :=
    SerializeShaderBytecode_keeps s1 k2 _ _ rfl i1 hi1lt
  refine ⟨?_, by rw [hkeep]; exact hk2, hsecond⟩
  intro heq
  rw [heq, hkeep, hk2] at hsecond
  injection hsecond with hsecond
  exact hne hsecond.symm

/-- C8 witness: archiving the same blob twice reuses index 0 without growing
the store, while a blob with a different stage kind gets index 1. -/
theorem serialize_shader_bytecode_dedup_inst :
    (SerializeShaderBytecode [] { deviceType := 3, shaderType := 1, bytecode := [7] } =
      ([{ deviceType := 3, shaderType := 1, bytecode := [7] }], 0)) ∧
    ({ deviceType := 3, shaderType := 2, bytecode := [7] } : ShaderBlobKey) ≠
      { deviceType := 3, shaderType := 1, bytecode := [7] } ∧
    (SerializeShaderBytecode [{ deviceType := 3, shaderType := 1, bytecode := [7] }]
      { deviceType := 3, shaderType := 1, bytecode := [7] } =
      ([{ deviceType := 3, shaderType := 1, bytecode := [7] }], 0)) ∧
    (SerializeShaderBytecode [{ deviceType := 3, shaderType := 1, bytecode := [7] }]
      { deviceType := 3, shaderType := 2, bytecode := [7] }).2 ≠ 0 :=
  ⟨by decide, by decide,
    (serialize_shader_bytecode_dedup []
      { deviceType := 3, shaderType := 1, bytecode := [7] }
      { deviceType := 3, shaderType := 2, bytecode := [7] }
      [{ deviceType := 3, shaderType := 1, bytecode := [7] }] 0 (by decide)).1,
    ((serialize_shader_bytecode_dedup []
      { deviceType := 3, shaderType := 1, bytecode := [7] }
      { deviceType := 3, shaderType := 2, bytecode := [7] }
      [{ deviceType := 3, shaderType := 1, bytecode := [7] }] 0 (by decide)).2
      (by decide)).1⟩

/-- C9 counterexample: a signature declaring no resources in either mutability
class has no descriptor sets, so the reporter's final descriptor-set-layout
count is 0, strictly below the supplied ResourceSignaturesCount of 1 — the
asserted inequality DescSetLayoutCount >= ResourceSignaturesCount fails. -/
theorem empty_signature_breaks_count_assertion :
    GetPipelineResourceBindingsVk [some (mkSignatureVk 0 [])] 1 = some ([], 0) ∧
    ([some (mkSignatureVk 0 [])] :
      List (Option PipelineResourceSignatureVk)).length = 1 ∧
    ¬ (1 ≤ 0) :=
  ⟨by decide, by decide, by decide⟩

/-- C9 (amended): the reporter's final descriptor-set-layout count is at least
the number of supplied signatures provided every supplied signature is non-null
and declares at least one resource, so that at least one mutability class is
present in each. -/
theorem reporter_count_ge_signature_count
    (infoSigs : List (Option PipelineResourceSignatureVk)) (st : Nat)
    (out : List PipelineResourceBinding) (c : Nat)
    (hall : ∀ os ∈ infoSigs, ∃ i rs, os = some (mkSignatureVk i rs) ∧ rs ≠ [] ∧
      rs.length < NullSetSize)
    (h : GetPipelineResourceBindingsVk infoSigs st = some (out, c)) :
    infoSigs.length ≤ c := by
  unfold GetPipelineResourceBindingsVk at h
  cases hs : SortResourceSignatures infoSigs with
  | none =>
    rw [hs] at h
    exact absurd h (by simp)
  | some sorted =>
    obtain ⟨slots, cnt⟩ := sorted
    rw [hs] at h
    injection h with h
    have hc : c = sumDescSets (slots.take cnt) := by
      have h2 := congrArg Prod.snd h
      rw [getBindingsLoop_snd, Nat.zero_add] at h2
      exact h2.symm
    have hbey := sort_beyond infoSigs slots cnt hs
    have htake : (slots.take cnt).filterMap id = slots.filterMap id :=
      filterMap_take_eq slots cnt hbey
    have hone : ∀ x ∈ (slots.filterMap id).map countDescSets, 1 ≤ x := by
      intro x hx
      rcases List.mem_map.mp hx with ⟨s, hsmem, hxeq⟩
      rcases List.mem_filterMap.mp hsmem with ⟨os, hosmem, hid⟩
      have hos : os = some s := hid
      subst hos
      rcases List.mem_iff_getElem.mp hosmem with ⟨j, hj, hget⟩
      have hgd : slots.getD j none = some s := by
        rw [List.getD_eq_getElem?_getD, List.getElem?_eq_getElem hj, hget]
        rfl
      have hmemsrc : (some s) ∈ infoSigs := sort_origin infoSigs slots cnt hs j s hgd
      rcases hall (some s) hmemsrc with ⟨i2, rs, heq, hne, hlen⟩
      injection heq with heq
      rw [← hxeq, heq]
      exact one_le_countDescSets_mk i2 rs hne hlen
    have hlensum := length_le_sum _ hone
    rw [List.length_map, length_filterMap_id_eq_countP,
      sort_countP infoSigs slots cnt hs] at hlensum
    have hallsome : infoSigs.countP (fun o => o.isSome) = infoSigs.length := by
      rw [List.countP_eq_length]
      intro os hos
      rcases hall os hos with ⟨i2, rs, heq, _, _⟩
      rw [heq]
      rfl
    rw [hallsome] at hlensum
    rw [hc]
    unfold sumDescSets
    rw [htake]
    exact hlensum

/-- C9 witness: one non-empty signature yields a final count of 1, at least the
supplied signature count. -/
theorem reporter_count_ge_signature_count_inst :
    (GetPipelineResourceBindingsVk
      [some (mkSignatureVk 0 [("t", 1, SHADER_RESOURCE_VARIABLE_TYPE.STATIC)])] 1 =
      some ([{ resourceName := "t", shaderStages := 1, register := 0, space := 0 }], 1)) ∧
    ([some (mkSignatureVk 0 [("t", 1, SHADER_RESOURCE_VARIABLE_TYPE.STATIC)])] :
      List (Option PipelineResourceSignatureVk)).length ≤ 1 := by
  refine ⟨by decide, reporter_count_ge_signature_count _ 1
    [{ resourceName := "t", shaderStages := 1, register := 0, space := 0 }] 1
    ?_ (by decide)⟩
  intro os hos
  rw [List.mem_singleton] at hos
  exact ⟨0, [("t", 1, SHADER_RESOURCE_VARIABLE_TYPE.STATIC)], hos, by decide, by decide⟩

/-- C10: BufferWebGPUImpl::Map assigns the staging memory and records the map
state exactly for MAP_READ and MAP_WRITE; MAP_READ_WRITE only logs an error,
leaving the caller's pointer unassigned and the map state unchanged, so a
buffer that was unmapped stays unmapped and a subsequent Map call still passes
the not-already-mapped check. -/
theorem buffer_map_read_write_unsupported
    (buf : BufferWebGPUMapPort) (p : Option (List Nat)) :
    (BufferWebGPU_Map buf MAP_TYPE.MAP_READ p =
      ({ buf with mapState := BufferMapState.Read }, some buf.mappedData, false)) ∧
    (BufferWebGPU_Map buf MAP_TYPE.MAP_WRITE p =
      ({ buf with mapState := BufferMapState.Write }, some buf.mappedData, false)) ∧
    (BufferWebGPU_Map buf MAP_TYPE.MAP_READ_WRITE p = (buf, p, true)) ∧
    (mapNotAlreadyMapped buf →
      mapNotAlreadyMapped (BufferWebGPU_Map buf MAP_TYPE.MAP_READ_WRITE p).1) :=
  ⟨rfl, rfl, rfl, fun hm => hm⟩

/-- C10 witness: an unmapped buffer stays unmapped across a rejected
MAP_READ_WRITE call. -/
theorem buffer_map_read_write_unsupported_inst :
    mapNotAlreadyMapped bufW ∧
    mapNotAlreadyMapped (BufferWebGPU_Map bufW MAP_TYPE.MAP_READ_WRITE none).1 :=
  ⟨rfl, (buffer_map_read_write_unsupported bufW none).2.2.2 rfl⟩

end DiligentVk
